import Mathlib

/-!
A shallow embedding of the hopsfs-benchmark repository (src/experiment.py and
src/run_benchmark.py) together with theorems settling the specification's
claims about it.

Conventions of the embedding:
* Python numbers appearing in throughput computations are modelled as `ℚ`;
  Python's `/` raises `ZeroDivisionError` on a zero denominator, so it is
  modelled by `pydiv`, which returns `none` in that case.
* Measured wall-clock durations (differences of `time.time()` reads) are
  nondeterministic environment values, so the embedded result computations
  take them as explicit parameters.
* File contents are modelled as lists of byte values (`List ℕ`).
* The control flow of each benchmark function is modelled as a trace of
  `Step`s in the order the source performs them, with `Step.clockStart` and
  `Step.clockEnd` marking the reads of the start and end timestamps of the
  timed phases.
-/

namespace HopsfsBench

/-- Python float division `a / b`: raises `ZeroDivisionError` when `b == 0`,
modelled as `none`. -/
def pydiv (a b : ℚ) : Option ℚ :=
  if b = 0 then none else some (a / b)

/-! ### Data generator: `write_large_file`, `write_small_file`
(src/experiment.py, lines 10-33) -/

/-- `chunk_size = 10 * 1024 * 1024`, the 10 MiB chunk of `write_large_file`. -/
def chunk_size : ℕ := 10 * 1024 * 1024

/-- The `while written < size_bytes` loop of `write_large_file`, returning the
bytes it writes starting from state `written`.  Each iteration writes
`to_write = min(chunk_size, size_bytes - written)` zero bytes: a full
`zero_chunk` when `to_write == chunk_size`, otherwise the final chunk
truncated to the remaining byte count. -/
def writeLargeLoop (size_bytes written : ℕ) : List ℕ :=
  if _h : written < size_bytes then
    let to_write := min chunk_size (size_bytes - written)
    List.replicate to_write 0 ++ writeLargeLoop size_bytes (written + to_write)
  else
    []
termination_by size_bytes - written
decreasing_by
  have hc : 0 < chunk_size := by norm_num [chunk_size]
  omega

/-- `write_large_file(file_path, size_gb)` writes
`size_bytes = int(size_gb * 1024 * 1024 * 1024)` zero bytes in 10 MiB chunks;
the model returns the written file's bytes.  (Python's `int` truncation and
`Int.floor` agree on nonnegative sizes, and `.toNat` makes the negative case
write nothing, exactly as the loop guard does.) -/
def write_large_file (size_gb : ℚ) : List ℕ :=
  let size_bytes := (⌊size_gb * 1024 * 1024 * 1024⌋).toNat
  writeLargeLoop size_bytes 0

/-- `write_small_file(file_path, size_kb)` writes `os.urandom(size_kb * 1024)`;
the random byte source `urandom` is a parameter of the model. -/
def write_small_file (urandom : ℕ → List ℕ) (size_kb : ℕ) : List ℕ :=
  let size_bytes := size_kb * 1024
  urandom size_bytes

/-! ### Throughput computations of the four test functions
(src/experiment.py: `test_files_s3`, `test_large_files`, `test_small_files`,
`test_files_local_copy`).  Each function computes, from its parameters and the
two measured elapsed times, the returned dictionary
`{'write_speed_mbs': ..., 'read_speed_mbs': ...}`. -/

/-- `test_files_s3`: `size_mb = size_kb / 1024`, `total_mb = num_files *
size_mb`, `speed_mbs = total_mb / elapsed` after the upload phase and
`read_speed_mbs = total_mb / elapsed` after the download phase. -/
def test_files_s3_result (num_files : ℕ) (size_kb elapsed_w elapsed_r : ℚ) :
    Option (ℚ × ℚ) :=
  let size_mb := size_kb / 1024
  let total_mb := (num_files : ℚ) * size_mb
  match pydiv total_mb elapsed_w with
  | none => none
  | some speed_mbs =>
    match pydiv total_mb elapsed_r with
    | none => none
    | some read_speed_mbs => some (speed_mbs, read_speed_mbs)

/-- `test_large_files`: `total_gb = num_files * size_gb`, `speed = total_gb /
elapsed`, `read_speed = total_gb / elapsed`; the returned dictionary holds
`speed * 1024` and `read_speed * 1024`. -/
def test_large_files_result (num_files : ℕ) (size_gb elapsed_w elapsed_r : ℚ) :
    Option (ℚ × ℚ) :=
  let total_gb := (num_files : ℚ) * size_gb
  match pydiv total_gb elapsed_w with
  | none => none
  | some speed =>
    match pydiv total_gb elapsed_r with
    | none => none
    | some read_speed => some (speed * 1024, read_speed * 1024)

/-- `test_small_files`: `size_mb = size_kb / 1024`, `total_mb = total_files *
size_mb`, speeds `total_mb / elapsed` for each phase. -/
def test_small_files_result (total_files : ℕ) (size_kb elapsed_w elapsed_r : ℚ) :
    Option (ℚ × ℚ) :=
  let size_mb := size_kb / 1024
  let total_mb := (total_files : ℚ) * size_mb
  match pydiv total_mb elapsed_w with
  | none => none
  | some speed_mbs =>
    match pydiv total_mb elapsed_r with
    | none => none
    | some read_speed_mbs => some (speed_mbs, read_speed_mbs)

/-- `test_files_local_copy`: `size_mb = size_kb / 1024`, `total_mb = num_files
* size_mb`, speeds `total_mb / elapsed` for each phase. -/
def test_files_local_copy_result (num_files : ℕ) (size_kb elapsed_w elapsed_r : ℚ) :
    Option (ℚ × ℚ) :=
  let size_mb := size_kb / 1024
  let total_mb := (num_files : ℚ) * size_mb
  match pydiv total_mb elapsed_w with
  | none => none
  | some speed_mbs =>
    match pydiv total_mb elapsed_r with
    | none => none
    | some read_speed_mbs => some (speed_mbs, read_speed_mbs)

/-! ### Execution traces of the four test functions.

Each benchmark function is straight-line code; its side-effecting operations
are modelled as a list of `Step`s in source order.  `clockStart` / `clockEnd`
are the `start_time = time.time()` and `elapsed = time.time() - start_time`
reads delimiting a timed phase. -/

/-- One side-effecting operation of a benchmark function. -/
inductive Step where
  | mkTempDir
  | stageFile (i : ℕ)
  | mkSubdir (k : ℕ)
  | setupClient
  | createBucket
  | mkOutputDir
  | mkThreadDir (t : ℕ)
  | hdfsMkdir
  | mkDownloadDir
  | clockStart
  | clockEnd
  | upload (i : ℕ)
  | download (i : ℕ)
  | copyItem (i : ℕ)
  | readItem (i : ℕ)
  | copyBatchToRemote
  | copyBatchFromRemote
  | deleteObject (i : ℕ)
  | deleteBucket
  | removeTargetFile (i : ℕ)
  | removeSourceFile (i : ℕ)
  | removeDir (k : ℕ)
  | removeOutputDir
  | removeTempDir
  | hdfsRm
  | rmtreeDownloadDir
deriving DecidableEq, Repr

/-- The data-transfer operations: uploads/downloads (`test_files_s3`),
streamed copies and reads (`test_large_files`, `test_small_files`) and the
two whole-directory `hdfs dfs` transfers (`test_files_local_copy`). -/
def Step.isTransfer : Step → Bool
  | Step.upload _ => true
  | Step.download _ => true
  | Step.copyItem _ => true
  | Step.readItem _ => true
  | Step.copyBatchToRemote => true
  | Step.copyBatchFromRemote => true
  | _ => false

/-- Collects the timed segments of a trace: `timedPhasesGo none` scans for a
`clockStart`, accumulates the steps performed until the matching `clockEnd`,
and emits each such segment. -/
def timedPhasesGo : Option (List Step) → List Step → List (List Step)
  | _, [] => []
  | none, s :: rest =>
    if s = Step.clockStart then timedPhasesGo (some []) rest
    else timedPhasesGo none rest
  | some acc, s :: rest =>
    if s = Step.clockEnd then acc.reverse :: timedPhasesGo none rest
    else timedPhasesGo (some (s :: acc)) rest

/-- The list of timed segments (one per phase) of a trace. -/
def timedPhases (trace : List Step) : List (List Step) :=
  timedPhasesGo none trace

/-- Cleanup of `test_files_s3` (Steps 5-6): delete each object, delete the
bucket, remove each staged local file, remove the temp directory — each
attempt wrapped in its own `try`/`except: pass`. -/
def s3_cleanup_steps (num_files : ℕ) : List Step :=
  (List.range num_files).map Step.deleteObject
    ++ [Step.deleteBucket]
    ++ (List.range num_files).map Step.removeSourceFile
    ++ [Step.removeTempDir]

/-- Cleanup of `test_large_files` (Steps 5-6): per item remove the copied
target file and its thread directory, then the output directory, then each
staged source file, then the temp directory. -/
def large_cleanup_steps (num_files : ℕ) : List Step :=
  (List.range num_files).flatMap (fun i => [Step.removeTargetFile i, Step.removeDir i])
    ++ [Step.removeOutputDir]
    ++ (List.range num_files).map Step.removeSourceFile
    ++ [Step.removeTempDir]

/-- Cleanup of `test_small_files` (Steps 5-6): remove every copied target
file, every thread directory, the output directory, every staged source file
and the temp directory. -/
def small_cleanup_steps (total_files parallel_writes : ℕ) : List Step :=
  (List.range total_files).map Step.removeTargetFile
    ++ (List.range parallel_writes).map Step.removeDir
    ++ [Step.removeOutputDir]
    ++ (List.range total_files).map Step.removeSourceFile
    ++ [Step.removeTempDir]

/-- The staging loop of `test_files_local_copy`: for each item index, compute
`subdir_index = i // files_per_subdir`, create the subdirectory when its path
is not yet in `subdirs` (appending it there), then create the file.  Returns
the staging steps together with the final `subdirs` accumulator (most
recently created subdirectory first). -/
def hdfsStageGo : List ℕ → List ℕ → List Step × List ℕ
  | [], subdirs => ([], subdirs)
  | i :: rest, subdirs =>
    let subdir_index := i / 100
    if subdir_index ∈ subdirs then
      (Step.stageFile i :: (hdfsStageGo rest subdirs).1,
        (hdfsStageGo rest subdirs).2)
    else
      (Step.mkSubdir subdir_index :: Step.stageFile i ::
          (hdfsStageGo rest (subdir_index :: subdirs)).1,
        (hdfsStageGo rest (subdir_index :: subdirs)).2)

/-- Cleanup of `test_files_local_copy` (Steps 5-7): `hdfs dfs -rm -r -f` on
the output directory (exit status ignored), `shutil.rmtree` of the download
directory, removal of each staged file, of each created subdirectory and of
the temp directory. -/
def hdfs_cleanup_steps (num_files : ℕ) : List Step :=
  [Step.hdfsRm, Step.rmtreeDownloadDir]
    ++ (List.range num_files).map Step.removeSourceFile
    ++ ((hdfsStageGo (List.range num_files) []).2.reverse).map Step.removeDir
    ++ [Step.removeTempDir]

/-- Trace of `test_files_s3` (src/experiment.py lines 92-228): staging,
client setup, bucket creation, timed upload phase, timed download phase,
cleanup. -/
def test_files_s3_trace (num_files : ℕ) : List Step :=
  [Step.mkTempDir]
    ++ (List.range num_files).map Step.stageFile
    ++ [Step.setupClient, Step.createBucket]
    ++ [Step.clockStart]
    ++ (List.range num_files).map Step.upload
    ++ [Step.clockEnd]
    ++ [Step.clockStart]
    ++ (List.range num_files).map Step.download
    ++ [Step.clockEnd]
    ++ s3_cleanup_steps num_files

/-- Trace of `test_large_files` (src/experiment.py lines 231-334): staging,
output/thread directory creation, timed copy phase, timed read phase,
cleanup. -/
def test_large_files_trace (num_files : ℕ) : List Step :=
  [Step.mkTempDir]
    ++ (List.range num_files).map Step.stageFile
    ++ [Step.mkOutputDir]
    ++ (List.range num_files).map Step.mkThreadDir
    ++ [Step.clockStart]
    ++ (List.range num_files).map Step.copyItem
    ++ [Step.clockEnd]
    ++ [Step.clockStart]
    ++ (List.range num_files).map Step.readItem
    ++ [Step.clockEnd]
    ++ large_cleanup_steps num_files

/-- Trace of `test_small_files` (src/experiment.py lines 514-632): staging,
output/thread directory creation, timed copy phase, timed read phase,
cleanup. -/
def test_small_files_trace (total_files parallel_writes : ℕ) : List Step :=
  [Step.mkTempDir]
    ++ (List.range total_files).map Step.stageFile
    ++ [Step.mkOutputDir]
    ++ (List.range parallel_writes).map Step.mkThreadDir
    ++ [Step.clockStart]
    ++ (List.range total_files).map Step.copyItem
    ++ [Step.clockEnd]
    ++ [Step.clockStart]
    ++ (List.range total_files).map Step.readItem
    ++ [Step.clockEnd]
    ++ small_cleanup_steps total_files parallel_writes

/-- Trace of `test_files_local_copy` (src/experiment.py lines 375-511):
staging into subdirectories, HDFS output directory creation, timed batch
upload, download directory creation, timed batch download, cleanup. -/
def test_files_local_copy_trace (num_files : ℕ) : List Step :=
  [Step.mkTempDir]
    ++ (hdfsStageGo (List.range num_files) []).1
    ++ [Step.hdfsMkdir]
    ++ [Step.clockStart, Step.copyBatchToRemote, Step.clockEnd]
    ++ [Step.mkDownloadDir]
    ++ [Step.clockStart, Step.copyBatchFromRemote, Step.clockEnd]
    ++ hdfs_cleanup_steps num_files

/-! ### Timed-region extraction lemmas -/

lemma timedPhasesGo_none_cons (s : Step) (r : List Step) (h : s ≠ Step.clockStart) :
    timedPhasesGo none (s :: r) = timedPhasesGo none r := by
  simp [timedPhasesGo, h]

lemma timedPhasesGo_none_start (r : List Step) :
    timedPhasesGo none (Step.clockStart :: r) = timedPhasesGo (some []) r := by
  simp [timedPhasesGo]

lemma timedPhasesGo_some_cons (acc : List Step) (s : Step) (r : List Step)
    (h : s ≠ Step.clockEnd) :
    timedPhasesGo (some acc) (s :: r) = timedPhasesGo (some (s :: acc)) r := by
  simp [timedPhasesGo, h]

lemma timedPhasesGo_some_end (acc : List Step) (r : List Step) :
    timedPhasesGo (some acc) (Step.clockEnd :: r)
      = acc.reverse :: timedPhasesGo none r := by
  simp [timedPhasesGo]

lemma timedPhasesGo_none_append (l r : List Step)
    (hl : ∀ s ∈ l, s ≠ Step.clockStart) :
    timedPhasesGo none (l ++ r) = timedPhasesGo none r := by
  induction l with
  | nil => rfl
  | cons s t ih =>
    rw [List.cons_append, timedPhasesGo_none_cons s _ (hl s (by simp))]
    exact ih fun x hx => hl x (by simp [hx])

lemma timedPhasesGo_some_append (l acc r : List Step)
    (hl : ∀ s ∈ l, s ≠ Step.clockEnd) :
    timedPhasesGo (some acc) (l ++ r) = timedPhasesGo (some (l.reverse ++ acc)) r := by
  induction l generalizing acc with
  | nil => simp
  | cons s t ih =>
    rw [List.cons_append, timedPhasesGo_some_cons acc s _ (hl s (by simp))]
    rw [ih (s :: acc) fun x hx => hl x (by simp [hx])]
    simp

/-- Computing the timed segments of a two-phase trace: everything before the
first `clockStart`, between the phases, and after the last `clockEnd` is
outside both timed segments; the segments are exactly `w` and `r`. -/
lemma timedPhases_two_phases (pre w mid r post : List Step)
    (hpre : ∀ s ∈ pre, s ≠ Step.clockStart)
    (hw : ∀ s ∈ w, s ≠ Step.clockEnd)
    (hmid : ∀ s ∈ mid, s ≠ Step.clockStart)
    (hr : ∀ s ∈ r, s ≠ Step.clockEnd)
    (hpost : ∀ s ∈ post, s ≠ Step.clockStart) :
    timedPhases (pre ++ Step.clockStart :: (w ++ Step.clockEnd ::
        (mid ++ Step.clockStart :: (r ++ Step.clockEnd :: post))))
      = [w, r] := by
  unfold timedPhases
  rw [timedPhasesGo_none_append _ _ hpre, timedPhasesGo_none_start,
    timedPhasesGo_some_append _ _ _ hw, timedPhasesGo_some_end,
    timedPhasesGo_none_append _ _ hmid, timedPhasesGo_none_start,
    timedPhasesGo_some_append _ _ _ hr, timedPhasesGo_some_end,
    ← List.append_nil post, timedPhasesGo_none_append _ _ hpost]
  simp [timedPhasesGo]

/-- Every step produced by the `test_files_local_copy` staging loop is a
subdirectory creation or a file creation. -/
lemma hdfsStageGo_steps (l : List ℕ) :
    ∀ subs, ∀ s ∈ (hdfsStageGo l subs).1,
      (∃ k, s = Step.mkSubdir k) ∨ ∃ i, s = Step.stageFile i := by
  induction l with
  | nil => intro subs s hs; simp [hdfsStageGo] at hs
  | cons i rest ih =>
    intro subs s hs
    by_cases h : i / 100 ∈ subs
    · simp only [hdfsStageGo, if_pos h, List.mem_cons] at hs
      rcases hs with rfl | hs
      · exact Or.inr ⟨i, rfl⟩
      · exact ih subs s hs
    · simp only [hdfsStageGo, if_neg h, List.mem_cons] at hs
      rcases hs with rfl | rfl | hs
      · exact Or.inl ⟨_, rfl⟩
      · exact Or.inr ⟨i, rfl⟩
      · exact ih _ s hs

/-- The timed segments of the `test_files_s3` trace are exactly the uploads
and the downloads. -/
lemma timedPhases_s3 (n : ℕ) :
    timedPhases (test_files_s3_trace n)
      = [(List.range n).map Step.upload, (List.range n).map Step.download] := by
  have h := timedPhases_two_phases
      ([Step.mkTempDir] ++ (List.range n).map Step.stageFile
        ++ [Step.setupClient, Step.createBucket])
      ((List.range n).map Step.upload) []
      ((List.range n).map Step.download) (s3_cleanup_steps n)
      (by intro s hs heq; subst heq; simp at hs)
      (by intro s hs heq; subst heq; simp at hs)
      (by simp)
      (by intro s hs heq; subst heq; simp at hs)
      (by intro s hs heq; subst heq; simp [s3_cleanup_steps] at hs)
  simp only [test_files_s3_trace]
  simpa [List.append_assoc] using h

/-- The timed segments of the `test_large_files` trace are exactly the copies
and the reads. -/
lemma timedPhases_large (n : ℕ) :
    timedPhases (test_large_files_trace n)
      = [(List.range n).map Step.copyItem, (List.range n).map Step.readItem] := by
  have h := timedPhases_two_phases
      ([Step.mkTempDir] ++ (List.range n).map Step.stageFile
        ++ [Step.mkOutputDir] ++ (List.range n).map Step.mkThreadDir)
      ((List.range n).map Step.copyItem) []
      ((List.range n).map Step.readItem) (large_cleanup_steps n)
      (by intro s hs heq; subst heq; simp at hs)
      (by intro s hs heq; subst heq; simp at hs)
      (by simp)
      (by intro s hs heq; subst heq; simp at hs)
      (by intro s hs heq; subst heq; simp [large_cleanup_steps] at hs)
  simp only [test_large_files_trace]
  simpa [List.append_assoc] using h

/-- The timed segments of the `test_small_files` trace are exactly the copies
and the reads. -/
lemma timedPhases_small (tf pw : ℕ) :
    timedPhases (test_small_files_trace tf pw)
      = [(List.range tf).map Step.copyItem, (List.range tf).map Step.readItem] := by
  have h := timedPhases_two_phases
      ([Step.mkTempDir] ++ (List.range tf).map Step.stageFile
        ++ [Step.mkOutputDir] ++ (List.range pw).map Step.mkThreadDir)
      ((List.range tf).map Step.copyItem) []
      ((List.range tf).map Step.readItem) (small_cleanup_steps tf pw)
      (by intro s hs heq; subst heq; simp at hs)
      (by intro s hs heq; subst heq; simp at hs)
      (by simp)
      (by intro s hs heq; subst heq; simp at hs)
      (by intro s hs heq; subst heq; simp [small_cleanup_steps] at hs)
  simp only [test_small_files_trace]
  simpa [List.append_assoc] using h

/-- The timed segments of the `test_files_local_copy` trace are exactly the
two batch transfers. -/
lemma timedPhases_local_copy (n : ℕ) :
    timedPhases (test_files_local_copy_trace n)
      = [[Step.copyBatchToRemote], [Step.copyBatchFromRemote]] := by
  have h := timedPhases_two_phases
      ([Step.mkTempDir] ++ (hdfsStageGo (List.range n) []).1 ++ [Step.hdfsMkdir])
      [Step.copyBatchToRemote] [Step.mkDownloadDir] [Step.copyBatchFromRemote]
      (hdfs_cleanup_steps n)
      (by intro s hs heq; subst heq
          simp at hs
          rcases hdfsStageGo_steps _ _ _ hs with ⟨k, hk⟩ | ⟨i, hi⟩ <;> simp_all)
      (by intro s hs heq; subst heq; simp at hs)
      (by intro s hs heq; subst heq; simp at hs)
      (by intro s hs heq; subst heq; simp at hs)
      (by intro s hs heq; subst heq; simp [hdfs_cleanup_steps] at hs)
  simp only [test_files_local_copy_trace]
  simpa [List.append_assoc] using h

/-- C1: in every scenario run by `test_files_s3`, `test_large_files`,
`test_small_files` and `test_files_local_copy`, the interval between a
phase's start-timestamp read and end-timestamp read contains exactly that
phase's data-transfer operations: file staging, destination
directory/bucket creation and all cleanup steps lie strictly outside both
timed segments. -/
theorem timed_region_only_transfers (n tf pw : ℕ) :
    timedPhases (test_files_s3_trace n)
      = [(List.range n).map Step.upload, (List.range n).map Step.download]
    ∧ timedPhases (test_large_files_trace n)
      = [(List.range n).map Step.copyItem, (List.range n).map Step.readItem]
    ∧ timedPhases (test_small_files_trace tf pw)
      = [(List.range tf).map Step.copyItem, (List.range tf).map Step.readItem]
    ∧ timedPhases (test_files_local_copy_trace n)
      = [[Step.copyBatchToRemote], [Step.copyBatchFromRemote]] :=
  ⟨timedPhases_s3 n, timedPhases_large n, timedPhases_small tf pw,
    timedPhases_local_copy n⟩

/-! ### Data-generator lemmas -/

/-- The write loop emits exactly the remaining `size_bytes - written` zero
bytes, whatever the chunking. -/
lemma writeLargeLoop_eq (size_bytes written : ℕ) :
    writeLargeLoop size_bytes written = List.replicate (size_bytes - written) 0 := by
  have key : ∀ fuel w, size_bytes - w ≤ fuel →
      writeLargeLoop size_bytes w = List.replicate (size_bytes - w) 0 := by
    intro fuel
    induction fuel with
    | zero =>
      intro w h
      have hnlt : ¬ w < size_bytes := by omega
      rw [writeLargeLoop.eq_def, dif_neg hnlt]
      have hz : size_bytes - w = 0 := by omega
      simp [hz]
    | succ fuel ih =>
      intro w h
      rw [writeLargeLoop.eq_def]
      by_cases hw : w < size_bytes
      · rw [dif_pos hw]
        have hc : 0 < chunk_size := by norm_num [chunk_size]
        have hrec := ih (w + min chunk_size (size_bytes - w)) (by omega)
        show List.replicate (min chunk_size (size_bytes - w)) 0
            ++ writeLargeLoop size_bytes (w + min chunk_size (size_bytes - w))
          = List.replicate (size_bytes - w) 0
        rw [hrec, ← List.replicate_add]
        congr 1
        omega
      · rw [dif_neg hw]
        have hz : size_bytes - w = 0 := by omega
        simp [hz]
  exact key (size_bytes - written) written le_rfl

/-- C2: the data generator is byte-exact.  `write_large_file(path, size_gb)`
writes exactly `int(size_gb * 1024**3)` zero bytes — also when that size is
not a multiple of the 10 MiB chunk, thanks to the truncated final chunk —
and `write_small_file(path, size_kb)` writes exactly `size_kb * 1024` bytes
drawn from `os.urandom` (which returns as many bytes as requested). -/
theorem data_generator_exact_size (size_gb : ℚ) (hg : 0 ≤ size_gb)
    (urandom : ℕ → List ℕ) (hu : ∀ m, (urandom m).length = m) (size_kb : ℕ) :
    ((write_large_file size_gb).length : ℤ) = ⌊size_gb * 1024 * 1024 * 1024⌋
    ∧ (∀ b ∈ write_large_file size_gb, b = 0)
    ∧ (write_small_file urandom size_kb).length = size_kb * 1024 := by
  have hfloor : (0:ℤ) ≤ ⌊size_gb * 1024 * 1024 * 1024⌋ := by
    apply Int.floor_nonneg.mpr
    positivity
  refine ⟨?_, ?_, ?_⟩
  · simp only [write_large_file, writeLargeLoop_eq, List.length_replicate,
      Nat.sub_zero]
    exact Int.toNat_of_nonneg hfloor
  · intro b hb
    simp only [write_large_file, writeLargeLoop_eq] at hb
    exact List.eq_of_mem_replicate hb
  · simp only [write_small_file, hu]

/-- Witness for C2: a 5-byte large file (5/2³⁰ GB — not a multiple of the
10 MiB chunk size) and a 3 KB small file, at a concrete byte source. -/
theorem data_generator_exact_size_witness :
    (0:ℚ) ≤ 5 / 1073741824
    ∧ ((write_large_file (5 / 1073741824)).length : ℤ)
        = ⌊(5 / 1073741824 : ℚ) * 1024 * 1024 * 1024⌋
    ∧ (write_small_file (fun m => List.replicate m 0) 3).length = 3 * 1024 := by
  have h := data_generator_exact_size (5 / 1073741824) (by norm_num)
    (fun m => List.replicate m 0) (by intro m; simp) 3
  exact ⟨by norm_num, h.1, h.2.2⟩

/-- Value of the `test_files_s3` result when both elapsed times are
non-zero. -/
lemma test_files_s3_result_eq (n : ℕ) (size_kb elapsed_w elapsed_r : ℚ)
    (hw : elapsed_w ≠ 0) (hr : elapsed_r ≠ 0) :
    test_files_s3_result n size_kb elapsed_w elapsed_r
      = some ((n : ℚ) * (size_kb / 1024) / elapsed_w,
          (n : ℚ) * (size_kb / 1024) / elapsed_r) := by
  simp [test_files_s3_result, pydiv, hw, hr]

/-- C3: every test function returns `write_speed_mbs = total megabytes /
write-phase elapsed seconds` and `read_speed_mbs = total megabytes /
read-phase elapsed seconds`, where the total is item count times per-item
size in megabytes; and `test_large_files`'s gigabyte-based computation
`(total_gb / elapsed) * 1024` equals total megabytes divided by elapsed
seconds exactly. -/
theorem throughput_formula (n tf : ℕ) (size_kb size_gb elapsed_w elapsed_r : ℚ)
    (hw : elapsed_w ≠ 0) (hr : elapsed_r ≠ 0) :
    test_files_s3_result n size_kb elapsed_w elapsed_r
      = some ((n : ℚ) * (size_kb / 1024) / elapsed_w,
          (n : ℚ) * (size_kb / 1024) / elapsed_r)
    ∧ test_files_local_copy_result n size_kb elapsed_w elapsed_r
      = some ((n : ℚ) * (size_kb / 1024) / elapsed_w,
          (n : ℚ) * (size_kb / 1024) / elapsed_r)
    ∧ test_small_files_result tf size_kb elapsed_w elapsed_r
      = some ((tf : ℚ) * (size_kb / 1024) / elapsed_w,
          (tf : ℚ) * (size_kb / 1024) / elapsed_r)
    ∧ test_large_files_result n size_gb elapsed_w elapsed_r
      = some ((n : ℚ) * size_gb / elapsed_w * 1024,
          (n : ℚ) * size_gb / elapsed_r * 1024)
    ∧ (n : ℚ) * size_gb / elapsed_w * 1024
        = (n : ℚ) * (size_gb * 1024) / elapsed_w := by
  refine ⟨test_files_s3_result_eq n size_kb elapsed_w elapsed_r hw hr, ?_, ?_, ?_, ?_⟩
  · simp [test_files_local_copy_result, pydiv, hw, hr]
  · simp [test_small_files_result, pydiv, hw, hr]
  · simp [test_large_files_result, pydiv, hw, hr]
  · ring

/-- Witness for C3: 2 large items of 2048 KB with elapsed times 4 s and 2 s
give 1 MB/s and 2 MB/s; 2 items of 1 GB give 512 MB/s and 1024 MB/s. -/
theorem throughput_formula_witness :
    (4 : ℚ) ≠ 0 ∧ (2 : ℚ) ≠ 0
    ∧ test_files_s3_result 2 2048 4 2 = some (1, 2)
    ∧ test_large_files_result 2 1 4 2 = some (512, 1024) := by
  have h := throughput_formula 2 3 2048 1 4 2 (by norm_num) (by norm_num)
  refine ⟨by norm_num, by norm_num, ?_, ?_⟩
  · rw [h.1]
    norm_num
  · rw [h.2.2.2.1]
    norm_num

/-- C4 counterexample: a degenerate configuration is not rejected at
scenario-construction time.  With zero items `test_files_s3` and
`test_small_files` proceed — the very first operation of the trace is
staging-directory creation, not a validation — and when a phase's measured
elapsed time is zero the throughput division is evaluated and raises
`ZeroDivisionError` (`none`). -/
theorem degenerate_config_reaches_division :
    test_files_s3_result 0 100 0 0 = none
    ∧ test_small_files_result 0 100 0 0 = none
    ∧ (test_files_s3_trace 0).head? = some Step.mkTempDir
    ∧ (test_small_files_trace 0 50).head? = some Step.mkTempDir := by
  refine ⟨rfl, rfl, rfl, rfl⟩

/-- C4 (amended): none of the four test functions validates its
configuration.  A zero-item scenario is accepted and its trace starts with
staging, and the throughput division is always evaluated: it fails (a
`ZeroDivisionError`, not a configuration error) exactly when a phase's
elapsed time is zero, whatever the item count. -/
theorem degenerate_config_amended (n : ℕ) (size_kb size_gb elapsed_w elapsed_r : ℚ) :
    (test_files_s3_result n size_kb elapsed_w elapsed_r = none
      ↔ elapsed_w = 0 ∨ elapsed_r = 0)
    ∧ (test_small_files_result n size_kb elapsed_w elapsed_r = none
      ↔ elapsed_w = 0 ∨ elapsed_r = 0)
    ∧ (test_files_local_copy_result n size_kb elapsed_w elapsed_r = none
      ↔ elapsed_w = 0 ∨ elapsed_r = 0)
    ∧ (test_large_files_result n size_gb elapsed_w elapsed_r = none
      ↔ elapsed_w = 0 ∨ elapsed_r = 0)
    ∧ (test_files_s3_trace n).head? = some Step.mkTempDir
    ∧ (test_large_files_trace n).head? = some Step.mkTempDir
    ∧ (test_small_files_trace n n).head? = some Step.mkTempDir
    ∧ (test_files_local_copy_trace n).head? = some Step.mkTempDir := by
  refine ⟨?_, ?_, ?_, ?_, rfl, rfl, rfl, rfl⟩ <;>
    by_cases hw : elapsed_w = 0 <;> by_cases hr : elapsed_r = 0 <;>
      simp [test_files_s3_result, test_small_files_result,
        test_files_local_copy_result, test_large_files_result, pydiv, hw, hr]

/-! ### Backend preparation (C5)
`test_files_s3` lines 147-153 and `test_files_local_copy` lines 433-438. -/

/-- Outcome of the backend's destination-creation call, as observed by the
caller. -/
inductive PrepareOutcome where
  | success
  | bucketAlreadyOwnedByYou
  | otherError (msg : String)
deriving DecidableEq, Repr

/-- The bucket-creation step of `test_files_s3`:
`try: s3_client.create_bucket(...)`, `except BucketAlreadyOwnedByYou: pass`,
`except Exception as e: print(f"Note: ...")` — every outcome lets the
scenario proceed. -/
def s3_create_bucket (outcome : PrepareOutcome) : Except String Unit :=
  match outcome with
  | PrepareOutcome.success => Except.ok ()
  | PrepareOutcome.bucketAlreadyOwnedByYou => Except.ok ()
  | PrepareOutcome.otherError _ => Except.ok ()

/-- The HDFS output-directory creation of `test_files_local_copy`: runs
`hdfs dfs -mkdir -p output_dir` and raises
`Exception(f"Failed to create HDFS directory ...")` on a non-zero exit
status. -/
def hdfs_mkdir (returncode : ℤ) (stderr output_dir : String) : Except String Unit :=
  if returncode ≠ 0 then
    Except.error ("Failed to create HDFS directory " ++ output_dir)
  else
    Except.ok ()

/-- C5 counterexample: an S3 bucket-creation failure whose cause is not
"already exists" does NOT raise — `test_files_s3` swallows it (printing a
note) and proceeds, contradicting the claim that such a failure is fatal
for every backend. -/
theorem s3_prepare_failure_not_fatal :
    s3_create_bucket (PrepareOutcome.otherError "AccessDenied") = Except.ok () :=
  rfl

/-- C5 (amended): only `test_files_local_copy` treats a preparation failure
as fatal — a non-zero `hdfs dfs -mkdir` exit status raises before either
timed phase (the mkdir step never appears inside a timed segment), while
`test_files_s3` treats every bucket-creation outcome, "already exists" and
any other failure alike, as success and proceeds. -/
theorem prepare_failure_amended (o : PrepareOutcome) (returncode : ℤ)
    (stderr output_dir : String) (n : ℕ) :
    s3_create_bucket o = Except.ok ()
    ∧ (hdfs_mkdir returncode stderr output_dir = Except.ok () ↔ returncode = 0)
    ∧ (∀ seg ∈ timedPhases (test_files_local_copy_trace n), Step.hdfsMkdir ∉ seg)
    ∧ (∀ seg ∈ timedPhases (test_files_s3_trace n), Step.createBucket ∉ seg) := by
  refine ⟨?_, ?_, ?_, ?_⟩
  · cases o <;> rfl
  · by_cases h : returncode = 0 <;> simp [hdfs_mkdir, h]
  · intro seg hseg
    rw [timedPhases_local_copy] at hseg
    simp only [List.mem_cons, List.not_mem_nil, or_false] at hseg
    rcases hseg with rfl | rfl <;> simp
  · intro seg hseg
    rw [timedPhases_s3] at hseg
    simp only [List.mem_cons, List.not_mem_nil, or_false] at hseg
    rcases hseg with rfl | rfl <;> simp

/-! ### Multi-run aggregation: `run_test_multiple_times`
(src/run_benchmark.py, lines 13-38) -/

/-- The dictionary returned by `run_test_multiple_times`. -/
structure MultiRunResult where
  write_speed_mbs : ℚ
  read_speed_mbs : ℚ
  all_write_speeds : List ℚ
  all_read_speeds : List ℚ
deriving DecidableEq, Repr

/-- `run_test_multiple_times(test_func, num_runs, **kwargs)`: runs the test
function `num_runs` times, appending each run's `write_speed_mbs` and
`read_speed_mbs` to the sample lists in run order (`test_func run` is run
`run`'s result pair), then computes `avg = sum(...) / len(...)` for both
lists and returns the averages together with the samples.  With
`num_runs = 0` both lists are empty and the average computation divides by
zero (`none`). -/
def run_test_multiple_times (test_func : ℕ → ℚ × ℚ) (num_runs : ℕ) :
    Option MultiRunResult :=
  let all_write_speeds := (List.range num_runs).map (fun run => (test_func run).1)
  let all_read_speeds := (List.range num_runs).map (fun run => (test_func run).2)
  match pydiv all_write_speeds.sum (all_write_speeds.length : ℚ) with
  | none => none
  | some avg_write =>
    match pydiv all_read_speeds.sum (all_read_speeds.length : ℚ) with
    | none => none
    | some avg_read =>
      some ⟨avg_write, avg_read, all_write_speeds, all_read_speeds⟩

/-- `run_test_multiple_times` prints its two average lines only under
`if num_runs > 1`. -/
def prints_average (num_runs : ℕ) : Bool := decide (num_runs > 1)

/-- Value of `run_test_multiple_times` for a positive number of runs. -/
lemma run_test_multiple_times_eq (test_func : ℕ → ℚ × ℚ) (num_runs : ℕ)
    (h : num_runs ≠ 0) :
    run_test_multiple_times test_func num_runs
      = some ⟨((List.range num_runs).map (fun run => (test_func run).1)).sum / num_runs,
          ((List.range num_runs).map (fun run => (test_func run).2)).sum / num_runs,
          (List.range num_runs).map (fun run => (test_func run).1),
          (List.range num_runs).map (fun run => (test_func run).2)⟩ := by
  have hnr : ((num_runs : ℕ) : ℚ) ≠ 0 := Nat.cast_ne_zero.mpr h
  simp [run_test_multiple_times, pydiv, hnr]

/-- C6: `run_test_multiple_times` executes the test function exactly
`num_runs` times, collects the per-run write and read samples in run order,
and returns the exact arithmetic mean of each sample list; with
`num_runs = 1` the average lines are not printed
(`prints_average 1 = false`) but the single-sample aggregate is still
returned. -/
theorem multi_run_average (test_func : ℕ → ℚ × ℚ) (num_runs : ℕ)
    (h : 1 ≤ num_runs) :
    run_test_multiple_times test_func num_runs
      = some ⟨((List.range num_runs).map (fun run => (test_func run).1)).sum / num_runs,
          ((List.range num_runs).map (fun run => (test_func run).2)).sum / num_runs,
          (List.range num_runs).map (fun run => (test_func run).1),
          (List.range num_runs).map (fun run => (test_func run).2)⟩
    ∧ prints_average 1 = false
    ∧ prints_average num_runs = decide (1 < num_runs) :=
  ⟨run_test_multiple_times_eq test_func num_runs (by omega), rfl, rfl⟩

/-- A run sequence with write and read samples 10, 20, 30 MB/s. -/
def sample_runs : ℕ → ℚ × ℚ := fun run => (10 + 10 * run, 10 + 10 * run)

/-- Witness for C6: for samples `[10, 20, 30]` the reported average is
exactly 20 MB/s. -/
theorem multi_run_average_witness :
    1 ≤ 3 ∧ run_test_multiple_times sample_runs 3
      = some ⟨20, 20, [10, 20, 30], [10, 20, 30]⟩ := by
  have h := multi_run_average sample_runs 3 (by norm_num)
  refine ⟨by norm_num, ?_⟩
  have h3 : List.range 3 = [0, 1, 2] := rfl
  rw [h.1, h3]
  norm_num [sample_runs]

/-- C10: `run_test_multiple_times` requires `num_runs ≥ 1`: at
`num_runs = 0` no run is executed and the average computation divides by
zero, never returning a dictionary; for `num_runs ≥ 1` the division is safe
and both returned sample lists have length exactly `num_runs`. -/
theorem num_runs_precondition (test_func : ℕ → ℚ × ℚ) :
    run_test_multiple_times test_func 0 = none
    ∧ ∀ num_runs, 1 ≤ num_runs →
        ∃ res, run_test_multiple_times test_func num_runs = some res
          ∧ res.all_write_speeds.length = num_runs
          ∧ res.all_read_speeds.length = num_runs := by
  refine ⟨rfl, ?_⟩
  intro num_runs hpos
  exact ⟨_, run_test_multiple_times_eq test_func num_runs (by omega),
    by simp, by simp⟩

/-! ### Best-effort cleanup (C7) -/

/-- One deletion attempt; the environment oracle `fails` decides whether the
underlying call raises. -/
def attemptDelete (fails : Step → Bool) (s : Step) : Except Unit Unit :=
  if fails s then Except.error () else Except.ok ()

/-- `try: <attempt>` / `except: pass` — any error is swallowed; `true`
records a successful attempt, `false` a swallowed failure. -/
def tryIgnore (r : Except Unit Unit) : Bool :=
  match r with
  | Except.ok _ => true
  | Except.error _ => false

/-- Runs a cleanup sequence: each step is attempted inside its own
`try`/`except: pass` (or, for the `hdfs dfs -rm` call, with its exit status
ignored), so the sequence continues past any failure and never raises.
Returns every attempted step with its outcome. -/
def runCleanup (fails : Step → Bool) : List Step → List (Step × Bool)
  | [] => []
  | s :: rest => (s, tryIgnore (attemptDelete fails s)) :: runCleanup fails rest

/-- Every step of a cleanup sequence is attempted, whatever fails. -/
lemma runCleanup_map_fst (fails : Step → Bool) (l : List Step) :
    (runCleanup fails l).map Prod.fst = l := by
  induction l with
  | nil => rfl
  | cons s rest ih => simp [runCleanup, ih]

/-- The tail of `test_files_s3` after the read phase: the computed result,
then cleanup, then the return of the result dictionary. -/
def test_files_s3_run (fails : Step → Bool) (num_files : ℕ)
    (size_kb elapsed_w elapsed_r : ℚ) :
    Option ((ℚ × ℚ) × List (Step × Bool)) :=
  match test_files_s3_result num_files size_kb elapsed_w elapsed_r with
  | none => none
  | some speeds => some (speeds, runCleanup fails (s3_cleanup_steps num_files))

/-- C7: cleanup is best-effort and independent per item in every test
function: whichever deletions fail, every cleanup step of the sequence is
still attempted (no failure aborts the remaining attempts), no error
propagates out, and the function still returns its result dictionary. -/
theorem cleanup_best_effort (fails : Step → Bool) (n tf pw : ℕ)
    (size_kb elapsed_w elapsed_r : ℚ) (hw : elapsed_w ≠ 0) (hr : elapsed_r ≠ 0) :
    (runCleanup fails (s3_cleanup_steps n)).map Prod.fst = s3_cleanup_steps n
    ∧ (runCleanup fails (large_cleanup_steps n)).map Prod.fst
        = large_cleanup_steps n
    ∧ (runCleanup fails (small_cleanup_steps tf pw)).map Prod.fst
        = small_cleanup_steps tf pw
    ∧ (runCleanup fails (hdfs_cleanup_steps n)).map Prod.fst
        = hdfs_cleanup_steps n
    ∧ ∃ speeds, test_files_s3_run fails n size_kb elapsed_w elapsed_r
        = some (speeds, runCleanup fails (s3_cleanup_steps n)) := by
  refine ⟨runCleanup_map_fst fails _, runCleanup_map_fst fails _,
    runCleanup_map_fst fails _, runCleanup_map_fst fails _, ?_⟩
  refine ⟨((n : ℚ) * (size_kb / 1024) / elapsed_w,
    (n : ℚ) * (size_kb / 1024) / elapsed_r), ?_⟩
  simp only [test_files_s3_run,
    test_files_s3_result_eq n size_kb elapsed_w elapsed_r hw hr]

/-- Witness for C7: with every deletion failing, the single-item cleanup of
`test_files_s3` still attempts all four steps and the result is returned. -/
theorem cleanup_best_effort_witness :
    (1 : ℚ) ≠ 0
    ∧ (runCleanup (fun _ => true) (s3_cleanup_steps 1)).map Prod.fst
        = s3_cleanup_steps 1
    ∧ ∃ speeds, test_files_s3_run (fun _ => true) 1 1024 1 1
        = some (speeds, runCleanup (fun _ => true) (s3_cleanup_steps 1)) := by
  have h := cleanup_best_effort (fun _ => true) 1 1 1 1024 1 1
    (by norm_num) (by norm_num)
  exact ⟨by norm_num, h.1, h.2.2.2.2⟩

/-! ### HDFS batch transfers (C8)
`copy_dir_to_hdfs_with_threads` and `copy_dir_from_hdfs_with_threads`
(src/experiment.py, lines 337-372). -/

/-- The command built by `copy_dir_to_hdfs_with_threads`:
`hdfs dfs -copyFromLocal -t <threads> local_dir hdfs_dir`. -/
def hdfs_copy_from_local_cmd (num_threads : ℕ) (local_dir hdfs_dir : String) :
    List String :=
  ["hdfs", "dfs", "-copyFromLocal", "-t", Nat.repr num_threads, local_dir, hdfs_dir]

/-- The command built by `copy_dir_from_hdfs_with_threads`:
`hdfs dfs -copyToLocal -t <threads> hdfs_dir local_dir`. -/
def hdfs_copy_to_local_cmd (num_threads : ℕ) (hdfs_dir local_dir : String) :
    List String :=
  ["hdfs", "dfs", "-copyToLocal", "-t", Nat.repr num_threads, hdfs_dir, local_dir]

/-- `copy_dir_to_hdfs_with_threads(local_dir, hdfs_dir, num_threads)`: runs
the external copy command and raises
`Exception(f"Failed to copy directory ... : {result.stderr}")` exactly when
its exit status is non-zero; `returncode` and `stderr` are the invoked
process's observed exit status and error output. -/
def copy_dir_to_hdfs_with_threads (local_dir hdfs_dir : String)
    (num_threads : ℕ) (returncode : ℤ) (stderr : String) : Except String Unit :=
  if returncode ≠ 0 then
    Except.error ("Failed to copy directory " ++ local_dir ++ " to " ++ hdfs_dir
      ++ ": " ++ stderr)
  else
    Except.ok ()

/-- `copy_dir_from_hdfs_with_threads(hdfs_dir, local_dir, num_threads)`:
symmetric counterpart of `copy_dir_to_hdfs_with_threads`. -/
def copy_dir_from_hdfs_with_threads (hdfs_dir local_dir : String)
    (num_threads : ℕ) (returncode : ℤ) (stderr : String) : Except String Unit :=
  if returncode ≠ 0 then
    Except.error ("Failed to copy directory " ++ hdfs_dir ++ " to " ++ local_dir
      ++ ": " ++ stderr)
  else
    Except.ok ()

/-- C8: the two distributed-filesystem batch transfers raise if and only if
the invoked external process exits with a non-zero status, the raised
message carries the process's error output (its stderr is a suffix of the
message), and on exit status zero they return normally. -/
theorem hdfs_batch_error_iff (local_dir hdfs_dir : String) (num_threads : ℕ)
    (returncode : ℤ) (stderr : String) :
    (copy_dir_to_hdfs_with_threads local_dir hdfs_dir num_threads returncode stderr
        = Except.ok () ↔ returncode = 0)
    ∧ (returncode ≠ 0 → ∃ p,
        copy_dir_to_hdfs_with_threads local_dir hdfs_dir num_threads returncode stderr
          = Except.error (p ++ stderr))
    ∧ (copy_dir_from_hdfs_with_threads hdfs_dir local_dir num_threads returncode stderr
        = Except.ok () ↔ returncode = 0)
    ∧ (returncode ≠ 0 → ∃ p,
        copy_dir_from_hdfs_with_threads hdfs_dir local_dir num_threads returncode stderr
          = Except.error (p ++ stderr)) := by
  refine ⟨?_, ?_, ?_, ?_⟩
  · by_cases h : returncode = 0 <;> simp [copy_dir_to_hdfs_with_threads, h]
  · intro h
    exact ⟨"Failed to copy directory " ++ local_dir ++ " to " ++ hdfs_dir ++ ": ",
      by simp [copy_dir_to_hdfs_with_threads, h, String.append_assoc]⟩
  · by_cases h : returncode = 0 <;> simp [copy_dir_from_hdfs_with_threads, h]
  · intro h
    exact ⟨"Failed to copy directory " ++ hdfs_dir ++ " to " ++ local_dir ++ ": ",
      by simp [copy_dir_from_hdfs_with_threads, h, String.append_assoc]⟩

/-! ### Item path construction (C9)
Python renders the item index with `f'..._{i}.dat'`, i.e. decimal notation;
the Lean counterpart is `Nat.repr`.  The lemmas below establish what the
distinctness argument needs: decimal rendering consists of digit characters
and is injective. -/

/-- Reads a decimal digit string back to the number it denotes. -/
def decodeNat (l : List Char) : ℕ :=
  l.foldl (fun a c => a * 10 + (c.toNat - 48)) 0

lemma digitChar_isDigit (d : ℕ) (hd : d < 10) : (Nat.digitChar d).isDigit = true := by
  interval_cases d <;> decide

lemma digitChar_toNat (d : ℕ) (hd : d < 10) : (Nat.digitChar d).toNat = 48 + d := by
  interval_cases d <;> decide

lemma toDigitsCore_append (fuel : ℕ) :
    ∀ n ds, Nat.toDigitsCore 10 fuel n ds = Nat.toDigitsCore 10 fuel n [] ++ ds := by
  induction fuel with
  | zero => intro n ds; simp [Nat.toDigitsCore]
  | succ fuel ih =>
    intro n ds
    simp only [Nat.toDigitsCore]
    by_cases h : n / 10 = 0
    · simp [h]
    · simp only [if_neg h]
      rw [ih (n / 10) (Nat.digitChar (n % 10) :: ds),
        ih (n / 10) [Nat.digitChar (n % 10)]]
      simp

lemma toDigitsCore_base (fuel n : ℕ) (h : n / 10 = 0) :
    Nat.toDigitsCore 10 (fuel + 1) n [] = [Nat.digitChar (n % 10)] := by
  simp [Nat.toDigitsCore, h]

lemma toDigitsCore_step (fuel n : ℕ) (h : ¬ n / 10 = 0) :
    Nat.toDigitsCore 10 (fuel + 1) n []
      = Nat.toDigitsCore 10 fuel (n / 10) [] ++ [Nat.digitChar (n % 10)] := by
  simp only [Nat.toDigitsCore, if_neg h]
  exact toDigitsCore_append fuel (n / 10) [Nat.digitChar (n % 10)]

lemma toDigitsCore_digits (fuel : ℕ) :
    ∀ n, ∀ c ∈ Nat.toDigitsCore 10 fuel n [], c.isDigit = true := by
  induction fuel with
  | zero => intro n c hc; simp [Nat.toDigitsCore] at hc
  | succ fuel ih =>
    intro n c hc
    by_cases h : n / 10 = 0
    · rw [toDigitsCore_base fuel n h] at hc
      simp only [List.mem_singleton] at hc
      subst hc
      exact digitChar_isDigit _ (Nat.mod_lt n (by norm_num))
    · rw [toDigitsCore_step fuel n h] at hc
      rcases List.mem_append.mp hc with hc | hc
      · exact ih (n / 10) c hc
      · simp only [List.mem_singleton] at hc
        subst hc
        exact digitChar_isDigit _ (Nat.mod_lt n (by norm_num))

lemma toDigitsCore_decode (fuel : ℕ) :
    ∀ n, n < fuel → decodeNat (Nat.toDigitsCore 10 fuel n []) = n := by
  induction fuel with
  | zero => intro n h; omega
  | succ fuel ih =>
    intro n h
    by_cases hdiv : n / 10 = 0
    · rw [toDigitsCore_base fuel n hdiv]
      have h10 : n < 10 := by omega
      simp only [decodeNat, List.foldl_cons, List.foldl_nil,
        digitChar_toNat (n % 10) (Nat.mod_lt n (by norm_num))]
      omega
    · rw [toDigitsCore_step fuel n hdiv]
      have hlt : n / 10 < fuel := by omega
      rw [decodeNat, List.foldl_append]
      simp only [List.foldl_cons, List.foldl_nil]
      have hrec : List.foldl (fun a c => a * 10 + (c.toNat - 48)) 0
          (Nat.toDigitsCore 10 fuel (n / 10) []) = n / 10 := ih (n / 10) hlt
      rw [hrec, digitChar_toNat (n % 10) (Nat.mod_lt n (by norm_num))]
      omega

/-- Decimal rendering round-trips through `decodeNat`. -/
lemma decodeNat_repr (n : ℕ) : decodeNat (Nat.repr n).data = n := by
  show decodeNat (Nat.toDigitsCore 10 (n + 1) n []) = n
  exact toDigitsCore_decode (n + 1) n (Nat.lt_succ_self n)

/-- Every character of a rendered numeral is a decimal digit. -/
lemma repr_data_digits (n : ℕ) : ∀ c ∈ (Nat.repr n).data, c.isDigit = true := by
  intro c hc
  exact toDigitsCore_digits (n + 1) n c hc

/-- Decimal rendering is injective. -/
lemma repr_data_inj {i j : ℕ} (h : (Nat.repr i).data = (Nat.repr j).data) : i = j := by
  have hdec := congrArg decodeNat h
  rwa [decodeNat_repr, decodeNat_repr] at hdec

lemma takeWhile_digit_append (l r : List Char)
    (hl : ∀ c ∈ l, c.isDigit = true)
    (hr : ∀ c, r.head? = some c → c.isDigit = false) :
    (l ++ r).takeWhile Char.isDigit = l := by
  induction l with
  | nil =>
    simp only [List.nil_append]
    cases r with
    | nil => rfl
    | cons c rest =>
      have hc : c.isDigit = false := hr c rfl
      simp [List.takeWhile_cons, hc]
  | cons c t ih =>
    have hc : c.isDigit = true := hl c (by simp)
    simp only [List.cons_append, List.takeWhile_cons, hc, if_true]
    rw [ih fun x hx => hl x (by simp [hx])]

/-- Key injectivity lemma: two strings of the shape
`<anything>_<decimal index>.dat` are equal only if the indices agree — the
final `_` separates the index because a rendered numeral contains only
digits. -/
lemma index_path_inj (a b : String) (i j : ℕ)
    (h : a ++ "_" ++ Nat.repr i ++ ".dat" = b ++ "_" ++ Nat.repr j ++ ".dat") :
    i = j := by
  have hd := congrArg String.data h
  simp only [String.data_append] at hd
  have h2 := List.append_cancel_right hd
  have h3 := congrArg List.reverse h2
  simp only [List.reverse_append, List.reverse_cons, List.reverse_nil,
    List.nil_append, List.singleton_append] at h3
  have htwl : List.takeWhile Char.isDigit
      ((Nat.repr i).data.reverse ++ '_' :: a.data.reverse)
      = (Nat.repr i).data.reverse :=
    takeWhile_digit_append _ _
      (fun c hc => repr_data_digits i c (List.mem_reverse.mp hc))
      (fun c hc => by
        simp only [List.head?_cons, Option.some.injEq] at hc
        subst hc
        decide)
  have htwr : List.takeWhile Char.isDigit
      ((Nat.repr j).data.reverse ++ '_' :: b.data.reverse)
      = (Nat.repr j).data.reverse :=
    takeWhile_digit_append _ _
      (fun c hc => repr_data_digits j c (List.mem_reverse.mp hc))
      (fun c hc => by
        simp only [List.head?_cons, Option.some.injEq] at hc
        subst hc
        decide)
  have h5 : (Nat.repr i).data.reverse = (Nat.repr j).data.reverse := by
    rw [← htwl, ← htwr, h3]
  have h6 : (Nat.repr i).data = (Nat.repr j).data := by
    have hrev := congrArg List.reverse h5
    simpa using hrev
  exact repr_data_inj h6

/-- The file name `f'{file_prefix}_{i}.dat'` used for every item. -/
def item_file_name (pfx : String) (i : ℕ) : String :=
  pfx ++ "_" ++ Nat.repr i ++ ".dat"

/-- The S3 object key of item `i` in `test_files_s3`. -/
def s3_object_key (pfx : String) (i : ℕ) : String :=
  item_file_name pfx i

/-- The local staging path
`os.path.join(temp_dir, f'{file_prefix}_{i}.dat')` of `test_files_s3`. -/
def s3_local_path (temp_dir pfx : String) (i : ℕ) : String :=
  temp_dir ++ "/" ++ item_file_name pfx i

/-- The staging path of item `i` in `test_files_local_copy`:
`os.path.join(temp_dir, f'subdir_{i // 100}', f'{file_prefix}_{i}.dat')` —
100 files per subdirectory. -/
def hdfs_staging_path (temp_dir pfx : String) (i : ℕ) : String :=
  temp_dir ++ "/" ++ ("subdir" ++ "_" ++ Nat.repr (i / 100)) ++ "/"
    ++ item_file_name pfx i

/-- The destination path of item `i` in `test_small_files`:
`os.path.join(target_dirs[i % parallel_writes], f'small_file_{i}.dat')`
where `target_dirs[t] = os.path.join(output_dir, f'thread_{t}')`. -/
def small_files_dst_path (output_dir : String) (parallel_writes i : ℕ) : String :=
  output_dir ++ "/" ++ ("thread" ++ "_" ++ Nat.repr (i % parallel_writes)) ++ "/"
    ++ item_file_name "small_file" i

/-- The destination path of item `i` in `test_large_files`:
`os.path.join(target_dirs[i], f'large_file_{i}.dat')` where
`target_dirs[i] = os.path.join(output_dir, f'thread_{i}')`. -/
def large_files_dst_path (output_dir : String) (i : ℕ) : String :=
  output_dir ++ "/" ++ ("thread" ++ "_" ++ Nat.repr i) ++ "/"
    ++ item_file_name "large_file" i

/-- Joined paths ending in an item file name are equal only when the item
indices agree, whatever the directories and prefixes. -/
lemma join_name_inj (x y pfx1 pfx2 : String) (i j : ℕ)
    (h : x ++ "/" ++ item_file_name pfx1 i = y ++ "/" ++ item_file_name pfx2 j) :
    i = j := by
  refine index_path_inj (x ++ "/" ++ pfx1) (y ++ "/" ++ pfx2) i j ?_
  simpa [item_file_name, String.append_assoc] using h

/-- C9: within one scenario, distinct item indices always yield distinct
local staging paths and distinct backend destination paths/keys — the file
name embeds the index as `<prefix>_<index>.dat`, distributed-fs staging
nests item `i` under `subdir_(i // 100)`, and `test_small_files` places
item `i` in thread directory `thread_(i % parallel_writes)`. -/
theorem item_paths_distinct (temp_dir pfx output_dir : String)
    (parallel_writes i j : ℕ) (hij : i ≠ j) :
    s3_object_key pfx i ≠ s3_object_key pfx j
    ∧ s3_local_path temp_dir pfx i ≠ s3_local_path temp_dir pfx j
    ∧ hdfs_staging_path temp_dir pfx i ≠ hdfs_staging_path temp_dir pfx j
    ∧ small_files_dst_path output_dir parallel_writes i
        ≠ small_files_dst_path output_dir parallel_writes j
    ∧ large_files_dst_path output_dir i ≠ large_files_dst_path output_dir j := by
  refine ⟨?_, ?_, ?_, ?_, ?_⟩ <;> intro heq <;> apply hij
  · simp only [s3_object_key, item_file_name] at heq
    exact index_path_inj pfx pfx i j heq
  · simp only [s3_local_path] at heq
    exact join_name_inj temp_dir temp_dir pfx pfx i j heq
  · simp only [hdfs_staging_path] at heq
    exact join_name_inj _ _ pfx pfx i j heq
  · simp only [small_files_dst_path] at heq
    exact join_name_inj _ _ "small_file" "small_file" i j heq
  · simp only [large_files_dst_path] at heq
    exact join_name_inj _ _ "large_file" "large_file" i j heq

/-- Witness for C9 at items 0 and 1 of a concrete scenario. -/
theorem item_paths_distinct_witness :
    (0 : ℕ) ≠ 1
    ∧ s3_object_key "small_file" 0 ≠ s3_object_key "small_file" 1
    ∧ small_files_dst_path "test_small" 50 0
        ≠ small_files_dst_path "test_small" 50 1 := by
  have h := item_paths_distinct "/tmp/s3_test" "small_file" "test_small" 50 0 1
    (by norm_num)
  exact ⟨by norm_num, h.1, h.2.2.2.1⟩

end HopsfsBench
